import Mathlib

/-!
Verification of the XYZ structure-file parser and writer of
`diffpy.Structure` (`src/Structure/Parsers/P_xyz.py`), together with a
spec-modelled slice of the DISCUS/PDFFit shape-envelope handling (whose
source `P_discus.py` is not part of the sources; only its unit test is).

Numbers are embedded as exact rationals: Python floats are modelled by `ℚ`
(every IEEE double is a dyadic rational, hence exactly representable; the
model has no `inf`/`nan` values, which no claim exercises).
-/

namespace Diffpy

/-! ## Python string primitives used by the parser -/

/-- The whitespace characters of Python 2 `str.split` / `str.strip`
(space, tab, newline, vertical tab, form feed, carriage return). -/
def pyIsSpace (c : Char) : Bool :=
  c = ' ' ∨ c = '\t' ∨ c = '\n' ∨ c = '\x0b' ∨ c = '\x0c' ∨ c = '\r'

/-- Tokenizer worker: `cur` is the (reversed) token being accumulated. -/
def tokAux : List Char → List Char → List String
  | [], cur => if cur = [] then [] else [String.mk cur.reverse]
  | c :: cs, cur =>
    if pyIsSpace c then
      if cur = [] then tokAux cs [] else String.mk cur.reverse :: tokAux cs []
    else tokAux cs (c :: cur)

/-- Python `str.split()` with no argument: split on runs of whitespace,
discarding empty fields. -/
def pysplit (s : String) : List String := tokAux s.toList []

/-- Python `str.strip()`: remove leading and trailing whitespace. -/
def pystrip (s : String) : String :=
  String.mk (((s.toList.dropWhile pyIsSpace).reverse.dropWhile pyIsSpace).reverse)

/-! ## Decimal digits, Python `str(int)` and `int(str)` -/

def digitChar (d : ℕ) : Char := Char.ofNat (48 + d)

def digVal (c : Char) : ℕ := c.toNat - 48

/-- Little-endian decimal digits, with `fuel` bounding the recursion depth
(structural recursion keeps the definition kernel-reducible). -/
def natCharsAux : ℕ → ℕ → List Char
  | 0, _ => []
  | _, 0 => []
  | fuel + 1, n => digitChar (n % 10) :: natCharsAux fuel (n / 10)

/-- Little-endian decimal digits of `n` (empty for 0). -/
def natCharsLE (n : ℕ) : List Char := natCharsAux n n

/-- Python `str` of a nonnegative integer. -/
def natToString (n : ℕ) : String :=
  if n = 0 then "0" else String.mk (natCharsLE n).reverse

/-- Python `str` of an integer. -/
def intToString (n : ℤ) : String :=
  if n < 0 then "-" ++ natToString n.natAbs else natToString n.toNat

/-- Value of a big-endian decimal digit string. -/
def digitsToNat (cs : List Char) : ℕ := cs.foldl (fun a c => 10 * a + digVal c) 0

/-- Python 2 `int(w)` (base 10) on a whitespace-free token: optional sign
followed by at least one decimal digit. -/
def pyIntTok? : List Char → Option ℤ
  | [] => none
  | c :: ds =>
    if c = '+' then
      if ds ≠ [] ∧ ds.all Char.isDigit then some (digitsToNat ds) else none
    else if c = '-' then
      if ds ≠ [] ∧ ds.all Char.isDigit then some (-(digitsToNat ds : ℤ)) else none
    else
      if (c :: ds).all Char.isDigit then some ((digitsToNat (c :: ds) : ℤ)) else none

/-- The count-line test of `P_xyz.parseLines`: `str(int(w1)) == w1`,
i.e. `w1` parses with Python `int` and is its canonical decimal rendering.
`none` covers both a `ValueError` from `int(w1)` and a failed equality. -/
def canonInt? (s : String) : Option ℤ :=
  match pyIntTok? s.toList with
  | some n => if intToString n = s then some n else none
  | none => none

/-! ## Python `float(str)` on tokens, with exact rational semantics -/

/-- Signed digit run after the `e` of an exponent: optional sign, at least
one digit, nothing after. -/
def readExpDigits : List Char → Option ℤ
  | [] => none
  | d :: ds =>
    if d = '+' then
      if ds ≠ [] ∧ ds.all Char.isDigit then some ((digitsToNat ds : ℤ)) else none
    else if d = '-' then
      if ds ≠ [] ∧ ds.all Char.isDigit then some (-(digitsToNat ds : ℤ)) else none
    else
      if (d :: ds).all Char.isDigit then some ((digitsToNat (d :: ds) : ℤ)) else none

/-- Exponent suffix of a float literal: empty, or `e`/`E` followed by a
signed digit run. -/
def readExpPart : List Char → Option ℤ
  | [] => some 0
  | c :: rest => if c = 'e' ∨ c = 'E' then readExpDigits rest else none

/-- The rational `sgn * mant * 10 ^ ex`, built with integer arithmetic and
a single `mkRat` so that the kernel can evaluate it. -/
def qOfParts (sgn : ℤ) (mant : ℕ) (ex : ℤ) : ℚ :=
  if 0 ≤ ex then mkRat (sgn * mant * 10 ^ ex.toNat) 1
  else mkRat (sgn * mant) (10 ^ (-ex).toNat)

/-- Fractional continuation of a float literal: `ip` are the integer-part
digits, `fp` the fraction digits after the `'.'`, `r3` what remains; the
value is `(ip.fp) * 10^ex` computed exactly. -/
def pyFloatFrac (sgn : ℤ) (ip fp r3 : List Char) : Option ℚ :=
  if ip = [] ∧ fp = [] then none
  else
    (readExpPart r3).map fun ex =>
      qOfParts sgn (digitsToNat ip * 10 ^ fp.length + digitsToNat fp)
        (ex - fp.length)

/-- Continuation after the integer-part digits `ip`: either a `'.'` with
fraction digits, or directly the exponent part. -/
def pyFloatBody (sgn : ℤ) (ip r1 : List Char) : Option ℚ :=
  if r1.head? = some '.' then
    pyFloatFrac sgn ip (r1.tail.takeWhile Char.isDigit) (r1.tail.dropWhile Char.isDigit)
  else if ip = [] then none
  else (readExpPart r1).map fun ex => qOfParts sgn (digitsToNat ip) ex

/-- Unsigned part of Python `float(str)`:
`digits [. digits?] | . digits`, then an optional exponent part. -/
def pyFloatUnsigned (sgn : ℤ) (cs : List Char) : Option ℚ :=
  pyFloatBody sgn (cs.takeWhile Char.isDigit) (cs.dropWhile Char.isDigit)

/-- Python 2 `float(f)` on a whitespace-free token, with exact rational
semantics (`inf`/`nan` spellings are outside the rational model). -/
def pyFloat? (s : String) : Option ℚ :=
  if s.toList.head? = some '+' then pyFloatUnsigned 1 s.toList.tail
  else if s.toList.head? = some '-' then pyFloatUnsigned (-1) s.toList.tail
  else pyFloatUnsigned 1 s.toList

/-! ## Data model

`P_xyz.parseLines` builds a fresh `Structure()` and only ever sets its
title and appends atoms; XYZ carries no cell, so the structure keeps the
default orthonormal unit lattice throughout. -/

/-- Element normalization of `P_xyz.parseLines`:
`element[0].upper() + element[1:].lower()` (ASCII case mapping, as for
Python 2 byte strings). -/
def normElem (s : String) : String :=
  match s.toList with
  | [] => ""
  | c :: cs => String.mk (c.toUpper :: cs.map Char.toLower)

/-- One atom as built by the XYZ parser: element symbol and coordinates.
Under the default unit lattice fractional and cartesian coincide. -/
structure Atom where
  element : String
  xyz : ℚ × ℚ × ℚ
deriving DecidableEq, Repr

/-- The slice of `Structure` that the XYZ format reads and writes: the
title and the ordered atom list (the lattice stays the default unit cell). -/
structure Structure where
  title : String
  atoms : List Atom
deriving DecidableEq, Repr

/-- `Modelled from the spec:` `Structure.cartesian` lives in the absent
`Structure/structure.py`; per the spec the default lattice is the
orthonormal unit cell, under which cartesian coordinates coincide with
the stored fractional ones.  XYZ never sets a lattice, so the writer's
`stru.cartesian(a)` is `a.xyz`. -/
def Structure.cartesian (a : Atom) : ℚ × ℚ × ℚ := a.xyz

/-- The `InvalidStructureFormat` errors that `P_xyz.parseLines` can raise,
tagged by kind; `message` below renders the exact Python message strings. -/
inductive XyzErr where
  | noCount (line : ℕ)
  | badColumnCount (line : ℕ)
  | colMismatch (line : ℕ)
  | badNumber (line : ℕ)
  | countMismatch (declared : ℤ) (read : ℕ)
deriving DecidableEq, Repr

/-- The exact Python exception message of each error. -/
def XyzErr.message : XyzErr → String
  | .noCount n => natToString n ++ ": invalid XYZ format, missing number of atoms"
  | .badColumnCount n => natToString n ++ ": invalid XYZ format, expected 4 columns"
  | .colMismatch n => natToString n ++ ": all lines must have the same number of columns"
  | .badNumber n => natToString n ++ ": invalid number format"
  | .countMismatch d m =>
    "expected " ++ intToString d ++ " atoms, read " ++ natToString m

/-- `s` contains `pat` as a substring. -/
def strContains (s pat : String) : Prop := ∃ a b, s = a ++ pat ++ b

instance {ε α : Type} [DecidableEq ε] [DecidableEq α] :
    DecidableEq (Except ε α) := fun x y =>
  match x, y with
  | .ok a, .ok b =>
    if h : a = b then .isTrue (by rw [h]) else .isFalse (by simp [h])
  | .error a, .error b =>
    if h : a = b then .isTrue (by rw [h]) else .isFalse (by simp [h])
  | .ok _, .error _ => .isFalse (by simp)
  | .error _, .ok _ => .isFalse (by simp)

/-! ## `Parser.parseLines` -/

/-- The leading-skip loop of `parseLines`: count the leading lines whose
field list is empty or starts with the token `#`. -/
def skipLead : List (List String) → ℕ
  | [] => 0
  | f :: rest =>
    if f = [] ∨ f.head? = some "#" then skipLead rest + 1 else 0

/-- The trailing-blank trim loop of `parseLines`:
`while stop > start and len(linefields[stop-1]) == 0: stop -= 1`. -/
def trimStop (lf : List (List String)) (start : ℕ) : ℕ → ℕ
  | 0 => 0
  | stop + 1 =>
    if start ≤ stop ∧ lf.getD stop [] = [] then trimStop lf start stop
    else stop + 1

/-- The record loop of `parseLines` over `linefields[start:]`.  At every
call site the required column count `nfields` equals 4 (checked on the
first record line before the loop starts), so the code's
`len(fields) != nfields` test is the `≠ 4` test here: a blank field list
is skipped, a 4-field list is parsed (`float` failure on a coordinate
token is the `ValueError` branch), anything else is the column-mismatch
error.  `pnl` is the Python `p_nl` before its increment at the loop top. -/
def readRecords : List (List String) → ℕ → List Atom → Except XyzErr (List Atom)
  | [], _, acc => .ok acc.reverse
  | fields :: rest, pnl, acc =>
    if fields = [] then readRecords rest (pnl + 1) acc
    else if fields.length ≠ 4 then .error (.colMismatch (pnl + 1))
    else
      match pyFloat? (fields.getD 1 ""), pyFloat? (fields.getD 2 ""),
          pyFloat? (fields.getD 3 "") with
      | some x, some y, some z =>
        readRecords rest (pnl + 1) (⟨normElem (fields.headD ""), (x, y, z)⟩ :: acc)
      | _, _, _ => .error (.badNumber (pnl + 1))

/-- The final atom-count check of `parseLines`, applied to the record
loop's outcome. -/
def countCheck (natoms : ℤ) (title : String) (r : Except XyzErr (List Atom)) :
    Except XyzErr Structure :=
  match r with
  | .ok atoms =>
    if (atoms.length : ℤ) = natoms then .ok ⟨title, atoms⟩
    else .error (.countMismatch natoms atoms.length)
  | .error e => .error e

/-- Body of `parseLines` after the count line and title have been read:
trim trailing blanks, early-return for an empty structure, check the
first record line has 4 columns, read the records, check the count. -/
def parseBody (lf : List (List String)) (len start : ℕ) (natoms : ℤ)
    (title : String) : Except XyzErr Structure :=
  if natoms = 0 ∨ trimStop lf start len ≤ start then .ok ⟨title, []⟩
  else if (lf.getD start []).length ≠ 4 then .error (.badColumnCount (start + 1))
  else countCheck natoms title (readRecords (lf.drop start) start [])

/-- `P_xyz.Parser.parseLines`.  The count stage mirrors the Python `try`
block: all of a one-token shape failure, an `int` `ValueError`, a failed
canonical-rendering test, a missing first line (`IndexError` on
`linefields[start]`) and a missing title line (`IndexError` on
`lines[start+1]`) raise the same "missing number of atoms" error at
1-based line `start+1`. -/
def Parser.parseLines (lines : List String) : Except XyzErr Structure :=
  let lf := lines.map pysplit
  let start := skipLead lf
  match lf.get? start with
  | none => .error (.noCount (start + 1))
  | some lfs =>
    match lfs with
    | [w1] =>
      match canonInt? w1 with
      | some natoms =>
        match lines.get? (start + 1) with
        | none => .error (.noCount (start + 1))
        | some titleLine =>
          parseBody lf lines.length (start + 2) natoms (pystrip titleLine)
      | none => .error (.noCount (start + 1))
    | _ => .error (.noCount (start + 1))

/-! ## `Parser.toLines` and the `%g` float format -/

/-- Drop trailing `'0'` characters. -/
def stripZeros (cs : List Char) : List Char :=
  (cs.reverse.dropWhile (· = '0')).reverse

/-- Exponent suffix of C/Python `%g` scientific notation: explicit sign
and at least two exponent digits. -/
def expSuffix (e : ℤ) : String :=
  let ds := if e.natAbs < 10 then "0" ++ natToString e.natAbs else natToString e.natAbs
  (if e < 0 then "-" else "+") ++ ds

/-- Lay out the 6 significant digits `m` (`10^5 ≤ m < 10^6`, value
`m * 10^(e-5)`) in `%g` style: fixed notation for `-4 ≤ e < 6`,
scientific otherwise, trailing zeros of the fraction removed. -/
def gFromDigits (m : ℕ) (e : ℤ) : String :=
  let ds := (natToString m).toList
  if -4 ≤ e ∧ e < 6 then
    if 0 ≤ e then
      let ip := ds.take (e.toNat + 1)
      let fp := stripZeros (ds.drop (e.toNat + 1))
      if fp = [] then String.mk ip else String.mk ip ++ "." ++ String.mk fp
    else
      "0." ++ String.mk (List.replicate (e.natAbs - 1) '0') ++ String.mk (stripZeros ds)
  else
    let fp := stripZeros (ds.drop 1)
    String.mk (ds.take 1) ++ (if fp = [] then "" else "." ++ String.mk fp) ++
      "e" ++ expSuffix e

/-- Smallest count of `×10` steps taking `n` to at least `d`
(`fuel` bounds the recursion depth). -/
def scaleSteps : ℕ → ℕ → ℕ → ℕ
  | 0, _, _ => 0
  | fuel + 1, n, d => if d ≤ n then 0 else scaleSteps fuel (n * 10) d + 1

/-- `⌊log10 (n / d)⌋` for positive naturals, by integer arithmetic only. -/
def ilog10 (n d : ℕ) : ℤ :=
  if d ≤ n then ((natCharsLE (n / d)).length : ℤ) - 1
  else -(scaleSteps d n d : ℤ)

/-- C/Python `"%g"` with default precision 6 on the positive rational
`n / d`: round to 6 significant decimal digits (half away from zero, as
`round` does), then lay them out. -/
def formatGPos (n d : ℕ) : String :=
  let e := ilog10 n d
  let N := if e ≤ 5 then n * 10 ^ (5 - e).toNat else n
  let D := if e ≤ 5 then d else d * 10 ^ (e - 5).toNat
  let m := (2 * N + D) / (2 * D)
  if m < 10 ^ 6 then gFromDigits m e
  else gFromDigits (m / 10) (e + 1)

/-- Python 2 `"%g" % x` (default precision 6) in the exact rational
model of floats. -/
def formatG (q : ℚ) : String :=
  if q.num = 0 then "0"
  else if q.num < 0 then "-" ++ formatGPos q.num.natAbs q.den
  else formatGPos q.num.toNat q.den

/-- `"%-3s" % s`: left-justify in a field of width 3. -/
def padTo3 (s : String) : String :=
  s ++ String.mk (List.replicate (3 - s.length) ' ')

/-- One atom line of the writer: `"%-3s %g %g %g" % (element, x, y, z)`
with cartesian coordinates (= `xyz` under the default unit lattice). -/
def recordLine (a : Atom) : String :=
  padTo3 a.element ++ " " ++ formatG a.xyz.1 ++ " " ++ formatG a.xyz.2.1 ++
    " " ++ formatG a.xyz.2.2

/-- `P_xyz.Parser.toLines`: count, title, then one line per atom. -/
def Parser.toLines (stru : Structure) : List String :=
  natToString stru.atoms.length :: stru.title :: stru.atoms.map recordLine

/-- A wellformed token: nonempty and whitespace-free. -/
def tokOk (s : String) : Prop :=
  s.toList ≠ [] ∧ ∀ c ∈ s.toList, pyIsSpace c = false

instance (s : String) : Decidable (tokOk s) := by unfold tokOk; infer_instance

/-- The element-normalized copy of an atom: what the parser rebuilds from a
line the writer produced for `a`. -/
def normAtom (a : Atom) : Atom := ⟨normElem a.element, a.xyz⟩

/-- An atom the XYZ writer serializes losslessly: its element symbol is a
wellformed token and its three `%g`-formatted coordinates `float`-parse
back to the exact original values. -/
def goodAtom (a : Atom) : Prop :=
  tokOk a.element ∧
  pyFloat? (formatG a.xyz.1) = some a.xyz.1 ∧
  pyFloat? (formatG a.xyz.2.1) = some a.xyz.2.1 ∧
  pyFloat? (formatG a.xyz.2.2) = some a.xyz.2.2

instance (a : Atom) : Decidable (goodAtom a) := by unfold goodAtom; infer_instance

/-- The count-stage acceptance test of `parseLines`: after the leading
skip, the first fields list is a single token that is a canonical base-10
integer, and a title line follows.  `parseLines` proceeds past the count
stage exactly when this holds. -/
def countStageOk (lines : List String) : Bool :=
  match (lines.map pysplit).get? (skipLead (lines.map pysplit)) with
  | some [w] =>
    (canonInt? w).isSome && (lines.get? (skipLead (lines.map pysplit) + 1)).isSome
  | _ => false

/-- Follows the spec's words: a "valid base-10 integer" is a token that
Python `int(w)` accepts in base 10 (optional sign, at least one digit) —
written from the specification, to be compared with the source's
canonical-form test `canonInt?`. -/
def isValidBase10Integer (s : String) : Bool := (pyIntTok? s.toList).isSome

/-! ## The DISCUS/PDFFit shape-envelope slice

`Modelled from the spec:` the DISCUS/PDFFit handler `P_discus.py` is not
among the sources (only its unit test is), so the slice of it that claim
C6 exercises — the optional `shape` header line — is modelled from the
specification: the writer emits `shape sphere, <diameter>` (resp.
`shape stepcut, <cutoff>`) only for a nonzero value and no `shape` line
when both are zero; the reader defaults both values to 0, reads a written
value back identically, and rejects an unknown shape kind. -/

/-- A lossless decimal-or-fraction rendering of a rational shape value
(an integer renders as its plain decimal form, e.g. `13`). -/
def ratToString (q : ℚ) : String :=
  if q.den = 1 then intToString q.num
  else intToString q.num ++ "/" ++ natToString q.den

/-- Read a shape value back: a float literal, or `num/den`. -/
def readRat? (s : String) : Option ℚ :=
  match s.toList.dropWhile (· != '/') with
  | [] => pyFloat? s
  | _ :: ds =>
    match pyIntTok? (s.toList.takeWhile (· != '/')), pyIntTok? ds with
    | some zn, some zd => if zd ≤ 0 then none else some (Rat.divInt zn zd)
    | _, _ => none

/-- `Modelled from the spec:` the header fields of a PDFFit structure that
the shape-envelope claims touch. -/
structure DiscusHeader where
  title : String
  spcgr : String
  spdiameter : ℚ
  stepcut : ℚ

/-- `Modelled from the spec:` the writer's optional shape line — emitted
only for a nonzero value, never for zero. -/
def shapeLines (spdiameter stepcut : ℚ) : List String :=
  if spdiameter ≠ 0 then ["shape   sphere, " ++ ratToString spdiameter]
  else if stepcut ≠ 0 then ["shape   stepcut, " ++ ratToString stepcut]
  else []

/-- `Modelled from the spec:` the discus writer's header block: title,
space group, the optional shape line, then the `atoms` sentinel that
starts the atom-record section. -/
def discusWrite (h : DiscusHeader) : List String :=
  ("title " ++ h.title) :: ("spcgr " ++ h.spcgr) ::
    (shapeLines h.spdiameter h.stepcut ++ ["atoms"])

/-- `Modelled from the spec:` parse the arguments of one `shape` record:
`sphere, <v>` or `stepcut, <v>`; any other kind token is a format error. -/
def parseShapeArgs (args : List String) (acc : ℚ × ℚ) : Except String (ℚ × ℚ) :=
  if args.head? = some "sphere," then
    match readRat? (args.getD 1 "") with
    | some dv => .ok (dv, acc.2)
    | none => .error "invalid shape value"
  else if args.head? = some "stepcut," then
    match readRat? (args.getD 1 "") with
    | some cv => .ok (acc.1, cv)
    | none => .error "invalid shape value"
  else .error "unknown shape kind"

/-- `Modelled from the spec:` scan the header lines before the `atoms`
sentinel, folding `shape` records into the `(spdiameter, stepcut)` pair
(both default 0); other header lines are tolerated and skipped. -/
def discusShapeScan : List String → ℚ × ℚ → Except String (ℚ × ℚ)
  | [], acc => .ok acc
  | l :: rest, acc =>
    if (pysplit l).head? = some "atoms" then .ok acc
    else if (pysplit l).head? = some "shape" then
      match parseShapeArgs (pysplit l).tail acc with
      | .ok acc2 => discusShapeScan rest acc2
      | .error e => .error e
    else discusShapeScan rest acc

/-- The shape-envelope values a discus text parses to. -/
def discusShape (lines : List String) : Except String (ℚ × ℚ) :=
  discusShapeScan lines (0, 0)

/-! ## Lemmas: decimal digit strings -/

lemma digVal_digitChar {d : ℕ} (h : d < 10) : digVal (digitChar d) = d := by
  interval_cases d <;> rfl

lemma isDigit_digitChar {d : ℕ} (h : d < 10) : (digitChar d).isDigit = true := by
  interval_cases d <;> rfl

lemma digitsToNat_append (ds : List Char) (c : Char) :
    digitsToNat (ds ++ [c]) = 10 * digitsToNat ds + digVal c := by
  simp [digitsToNat, List.foldl_append]

lemma natCharsAux_digits :
    ∀ fuel n, ∀ c ∈ natCharsAux fuel n, c.isDigit = true := by
  intro fuel
  induction fuel with
  | zero => intro n c hc; simp [natCharsAux] at hc
  | succ fuel ih =>
    intro n c hc
    match n with
    | 0 => simp [natCharsAux] at hc
    | m + 1 =>
      rw [show natCharsAux (fuel + 1) (m + 1) =
          digitChar ((m + 1) % 10) :: natCharsAux fuel ((m + 1) / 10) from rfl] at hc
      rcases List.mem_cons.mp hc with h | h
      · subst h; exact isDigit_digitChar (Nat.mod_lt _ (by omega))
      · exact ih _ c h

lemma natCharsAux_val :
    ∀ fuel n, n ≤ fuel → digitsToNat (natCharsAux fuel n).reverse = n := by
  intro fuel
  induction fuel with
  | zero => intro n h; interval_cases n; rfl
  | succ fuel ih =>
    intro n h
    match n with
    | 0 => rfl
    | m + 1 =>
      rw [show natCharsAux (fuel + 1) (m + 1) =
          digitChar ((m + 1) % 10) :: natCharsAux fuel ((m + 1) / 10) from rfl,
        List.reverse_cons, digitsToNat_append,
        ih ((m + 1) / 10) (by omega), digVal_digitChar (Nat.mod_lt _ (by omega))]
      omega

lemma natToString_toList_digits (n : ℕ) :
    ∀ c ∈ (natToString n).toList, c.isDigit = true := by
  intro c hc
  unfold natToString at hc
  split at hc
  · simp only [show ("0" : String).toList = ['0'] from rfl, List.mem_singleton] at hc
    subst hc; rfl
  · simp only [show (String.mk ((natCharsLE n).reverse)).toList =
      (natCharsLE n).reverse from rfl, List.mem_reverse] at hc
    exact natCharsAux_digits n n c hc

lemma natToString_toList_ne_nil (n : ℕ) : (natToString n).toList ≠ [] := by
  unfold natToString
  split
  · simp [show ("0" : String).toList = ['0'] from rfl]
  · rename_i h
    show (natCharsLE n).reverse ≠ []
    simp only [ne_eq, List.reverse_eq_nil_iff]
    unfold natCharsLE
    match fe : n, h with
    | m + 1, _ =>
      rw [show natCharsAux (m + 1) (m + 1) =
        digitChar ((m + 1) % 10) :: natCharsAux m ((m + 1) / 10) from rfl]
      simp

lemma natToString_val (n : ℕ) : digitsToNat (natToString n).toList = n := by
  unfold natToString
  split
  · rename_i h; subst h; rfl
  · show digitsToNat (natCharsLE n).reverse = n
    exact natCharsAux_val n n le_rfl

lemma isDigit_not_space {c : Char} (h : c.isDigit = true) : pyIsSpace c = false := by
  revert h
  unfold pyIsSpace Char.isDigit
  simp only [decide_eq_true_eq, Bool.and_eq_true, decide_eq_false_iff_not]
  rintro ⟨h1, h2⟩ (rfl | rfl | rfl | rfl | rfl | rfl) <;> simp_all

lemma pyIntTok?_digits {cs : List Char} (hne : cs ≠ [])
    (hd : ∀ c ∈ cs, c.isDigit = true) :
    pyIntTok? cs = some ((digitsToNat cs : ℤ)) := by
  match cs, hne with
  | c :: ds, _ =>
    have hc : c.isDigit = true := hd c (List.mem_cons_self c ds)
    have hplus : c ≠ '+' := by rintro rfl; simp [Char.isDigit] at hc
    have hminus : c ≠ '-' := by rintro rfl; simp [Char.isDigit] at hc
    rw [pyIntTok?, if_neg hplus, if_neg hminus, if_pos (by simpa using hd)]

lemma canonInt?_natToString (n : ℕ) : canonInt? (natToString n) = some (n : ℤ) := by
  unfold canonInt?
  rw [pyIntTok?_digits (natToString_toList_ne_nil n) (natToString_toList_digits n),
    natToString_val]
  show (if intToString (n : ℤ) = natToString n then some ((n : ℤ)) else none) = some ((n : ℤ))
  rw [if_pos]
  unfold intToString
  rw [if_neg (by omega), Int.toNat_natCast]

lemma natToString_head_digit (n : ℕ) :
    ∃ c rest, (natToString n).toList = c :: rest ∧ c.isDigit = true := by
  rcases h : (natToString n).toList with _ | ⟨c, rest⟩
  · exact absurd h (natToString_toList_ne_nil n)
  · exact ⟨c, rest, rfl, natToString_toList_digits n c (by rw [h]; simp)⟩

lemma natToString_ne_hash (n : ℕ) : natToString n ≠ "#" := by
  intro h
  have := natToString_toList_digits n '#' (by rw [h]; simp)
  simp [Char.isDigit] at this

/-! ## Lemmas: the whitespace tokenizer -/

lemma toList_append (a b : String) : (a ++ b).toList = a.toList ++ b.toList :=
  String.data_append a b

lemma toList_mk (l : List Char) : (String.mk l).toList = l := rfl

lemma mk_toList (s : String) : String.mk s.toList = s := rfl

lemma tokAux_nonspace (t : List Char) (h : ∀ c ∈ t, pyIsSpace c = false) :
    ∀ rest cur, tokAux (t ++ rest) cur = tokAux rest (t.reverse ++ cur) := by
  induction t with
  | nil => simp
  | cons c t ih =>
    intro rest cur
    have hc := h c (List.mem_cons_self c t)
    rw [List.cons_append, tokAux, if_neg (by simp [hc]),
      ih (fun d hd => h d (List.mem_cons_of_mem c hd)) rest (c :: cur)]
    simp

lemma tokAux_space {c : Char} (hc : pyIsSpace c = true) (rest cur) :
    tokAux (c :: rest) cur =
      if cur = [] then tokAux rest [] else String.mk cur.reverse :: tokAux rest [] := by
  rw [tokAux, if_pos hc]

lemma space_isSpace : pyIsSpace ' ' = true := rfl

lemma tokAux_replicate_space (k : ℕ) (rest : List Char) :
    tokAux (List.replicate k ' ' ++ rest) [] = tokAux rest [] := by
  induction k with
  | zero => rfl
  | succ k ih =>
    rw [List.replicate_succ, List.cons_append, tokAux_space space_isSpace,
      if_pos rfl, ih]

lemma tokAux_token_sep (t : List Char) (hne : t ≠ [])
    (h : ∀ c ∈ t, pyIsSpace c = false) (k : ℕ) (rest : List Char) :
    tokAux (t ++ (List.replicate (k + 1) ' ' ++ rest)) [] =
      String.mk t :: tokAux rest [] := by
  rw [tokAux_nonspace t h _ [], List.replicate_succ, List.cons_append,
    tokAux_space space_isSpace, if_neg (by simp [hne]), tokAux_replicate_space]
  simp

lemma tokAux_final (t : List Char) (hne : t ≠ [])
    (h : ∀ c ∈ t, pyIsSpace c = false) :
    tokAux t [] = [String.mk t] := by
  have h0 := tokAux_nonspace t h [] []
  rw [List.append_nil] at h0
  rw [h0, tokAux, if_neg (by simp [hne])]
  simp

lemma pysplit_single (s : String) (h : tokOk s) : pysplit s = [s] := by
  unfold pysplit
  rw [tokAux_final s.toList h.1 h.2, mk_toList]

lemma pysplit_sep (w s : String) (k : ℕ) (hw : tokOk w) :
    pysplit (w ++ String.mk (List.replicate (k + 1) ' ') ++ s) = w :: pysplit s := by
  unfold pysplit
  rw [show (w ++ String.mk (List.replicate (k + 1) ' ') ++ s).toList
      = w.toList ++ (List.replicate (k + 1) ' ' ++ s.toList) by
    simp [toList_append, toList_mk]]
  rw [tokAux_token_sep w.toList hw.1 hw.2 k, mk_toList]

lemma pysplit_record (e g1 g2 g3 : String) (he : tokOk e)
    (h1 : tokOk g1) (h2 : tokOk g2) (h3 : tokOk g3) :
    pysplit (padTo3 e ++ " " ++ g1 ++ " " ++ g2 ++ " " ++ g3) = [e, g1, g2, g3] := by
  unfold pysplit padTo3
  rw [show (e ++ String.mk (List.replicate (3 - e.length) ' ') ++ " " ++ g1 ++ " " ++
        g2 ++ " " ++ g3).toList
      = e.toList ++ (List.replicate ((3 - e.length) + 1) ' ' ++
        (g1.toList ++ (List.replicate (0 + 1) ' ' ++
          (g2.toList ++ (List.replicate (0 + 1) ' ' ++ g3.toList))))) by
    simp [toList_append, toList_mk, List.replicate_succ', List.append_assoc,
      show (" " : String).toList = [' '] from rfl]]
  rw [tokAux_token_sep e.toList he.1 he.2, tokAux_token_sep g1.toList h1.1 h1.2,
    tokAux_token_sep g2.toList h2.1 h2.2, tokAux_final g3.toList h3.1 h3.2,
    mk_toList, mk_toList, mk_toList, mk_toList]

/-! ## Lemmas: successful float parses are wellformed tokens -/

lemma readExpPart_chars {cs : List Char} {ex : ℤ} (h : readExpPart cs = some ex) :
    ∀ x ∈ cs, x = 'e' ∨ x = 'E' ∨ x = '+' ∨ x = '-' ∨ x.isDigit = true := by
  match cs with
  | [] => intro x hx; simp at hx
  | c :: rest =>
    simp only [readExpPart] at h
    by_cases hce : c = 'e' ∨ c = 'E'
    · rw [if_pos hce] at h
      match rest with
      | [] => simp [readExpDigits] at h
      | d :: ds =>
        simp only [readExpDigits] at h
        have hds : ∀ x ∈ ds, x.isDigit = true := by
          by_cases hd1 : d = '+'
          · rw [if_pos hd1] at h
            split at h
            · rename_i hh; simpa using hh.2
            · simp at h
          · rw [if_neg hd1] at h
            by_cases hd2 : d = '-'
            · rw [if_pos hd2] at h
              split at h
              · rename_i hh; simpa using hh.2
              · simp at h
            · rw [if_neg hd2] at h
              split at h
              · rename_i hh
                simp only [List.all_cons, Bool.and_eq_true, List.all_eq_true] at hh
                exact fun x hx => hh.2 x hx
              · simp at h
        have hd : d = '+' ∨ d = '-' ∨ d.isDigit = true := by
          by_cases hd1 : d = '+'
          · exact Or.inl hd1
          · by_cases hd2 : d = '-'
            · exact Or.inr (Or.inl hd2)
            · rw [if_neg hd1, if_neg hd2] at h
              split at h
              · rename_i hh
                simp only [List.all_cons, Bool.and_eq_true] at hh
                exact Or.inr (Or.inr hh.1)
              · simp at h
        intro x hx
        rcases List.mem_cons.mp hx with rfl | hx
        · tauto
        · rcases List.mem_cons.mp hx with rfl | hx
          · tauto
          · exact Or.inr (Or.inr (Or.inr (Or.inr (hds x hx))))
    · rw [if_neg hce] at h
      simp at h

lemma readExpPart_nonspace {cs : List Char} {ex : ℤ} (h : readExpPart cs = some ex) :
    ∀ x ∈ cs, pyIsSpace x = false := by
  intro x hx
  rcases readExpPart_chars h x hx with rfl | rfl | rfl | rfl | hd
  · rfl
  · rfl
  · rfl
  · rfl
  · exact isDigit_not_space hd

lemma pyFloatUnsigned_tok {sgn : ℤ} {cs : List Char} {v : ℚ}
    (h : pyFloatUnsigned sgn cs = some v) :
    cs ≠ [] ∧ ∀ x ∈ cs, pyIsSpace x = false := by
  have hsplit : cs.takeWhile Char.isDigit ++ cs.dropWhile Char.isDigit = cs :=
    List.takeWhile_append_dropWhile Char.isDigit cs
  unfold pyFloatUnsigned pyFloatBody at h
  by_cases hdot : (cs.dropWhile Char.isDigit).head? = some '.'
  · rw [if_pos hdot] at h
    obtain ⟨t, ht⟩ : ∃ t, cs.dropWhile Char.isDigit = '.' :: t := by
      rcases hr : cs.dropWhile Char.isDigit with _ | ⟨c, t⟩
      · rw [hr] at hdot; simp at hdot
      · rw [hr] at hdot; simp at hdot; exact ⟨t, by rw [hdot]⟩
    unfold pyFloatFrac at h
    split at h
    · simp at h
    · obtain ⟨ex, hex, -⟩ := Option.map_eq_some'.mp h
      have htail : ((cs.dropWhile Char.isDigit).tail) = t := by rw [ht]; rfl
      rw [htail] at hex
      have htsplit : t.takeWhile Char.isDigit ++ t.dropWhile Char.isDigit = t :=
        List.takeWhile_append_dropWhile Char.isDigit t
      refine ⟨?_, ?_⟩
      · intro hcs
        rw [hcs] at ht; simp at ht
      · intro x hx
        rw [← hsplit] at hx
        rcases List.mem_append.mp hx with hx | hx
        · exact isDigit_not_space (List.mem_takeWhile_imp hx)
        · rw [ht] at hx
          rcases List.mem_cons.mp hx with rfl | hx
          · rfl
          · rw [← htsplit] at hx
            rcases List.mem_append.mp hx with hx | hx
            · exact isDigit_not_space (List.mem_takeWhile_imp hx)
            · exact readExpPart_nonspace hex x hx
  · rw [if_neg hdot] at h
    split at h
    · simp at h
    · rename_i hip
      obtain ⟨ex, hex, -⟩ := Option.map_eq_some'.mp h
      refine ⟨?_, ?_⟩
      · intro hcs
        rw [hcs] at hip; simp at hip
      · intro x hx
        rw [← hsplit] at hx
        rcases List.mem_append.mp hx with hx | hx
        · exact isDigit_not_space (List.mem_takeWhile_imp hx)
        · exact readExpPart_nonspace hex x hx

lemma pyFloat?_tokOk {s : String} {v : ℚ} (h : pyFloat? s = some v) : tokOk s := by
  unfold pyFloat? at h
  by_cases hplus : s.toList.head? = some '+'
  · rw [if_pos hplus] at h
    obtain ⟨t, ht⟩ : ∃ t, s.toList = '+' :: t := by
      rcases hr : s.toList with _ | ⟨c, t⟩
      · rw [hr] at hplus; simp at hplus
      · rw [hr] at hplus; simp at hplus; exact ⟨t, by rw [hplus]⟩
    rw [show s.toList.tail = t by rw [ht]; rfl] at h
    obtain ⟨-, hns⟩ := pyFloatUnsigned_tok h
    refine ⟨by rw [ht]; simp, ?_⟩
    intro x hx
    rw [ht] at hx
    rcases List.mem_cons.mp hx with rfl | hx
    · rfl
    · exact hns x hx
  · rw [if_neg hplus] at h
    by_cases hminus : s.toList.head? = some '-'
    · rw [if_pos hminus] at h
      obtain ⟨t, ht⟩ : ∃ t, s.toList = '-' :: t := by
        rcases hr : s.toList with _ | ⟨c, t⟩
        · rw [hr] at hminus; simp at hminus
        · rw [hr] at hminus; simp at hminus; exact ⟨t, by rw [hminus]⟩
      rw [show s.toList.tail = t by rw [ht]; rfl] at h
      obtain ⟨-, hns⟩ := pyFloatUnsigned_tok h
      refine ⟨by rw [ht]; simp, ?_⟩
      intro x hx
      rw [ht] at hx
      rcases List.mem_cons.mp hx with rfl | hx
      · rfl
      · exact hns x hx
    · rw [if_neg hminus] at h
      exact pyFloatUnsigned_tok h

/-! ## Lemmas: the record loop, the trim loop and the parse body -/

lemma readRecords_error :
    ∀ {fl : List (List String)} {pnl : ℕ} {acc : List Atom} {e : XyzErr},
      readRecords fl pnl acc = .error e →
      ∃ k, e = .colMismatch k ∨ e = .badNumber k := by
  intro fl
  induction fl with
  | nil => intro pnl acc e h; simp [readRecords] at h
  | cons fields rest ih =>
    intro pnl acc e h
    rw [readRecords] at h
    split at h
    · exact ih h
    · split at h
      · exact ⟨pnl + 1, Or.inl (by injection h with h; exact h.symm)⟩
      · rcases h1 : pyFloat? (fields.getD 1 "") with _ | x <;>
          rcases h2 : pyFloat? (fields.getD 2 "") with _ | y <;>
          rcases h3 : pyFloat? (fields.getD 3 "") with _ | z <;>
          rw [h1, h2, h3] at h <;>
          first
          | exact ⟨pnl + 1, Or.inr (by injection h with h; exact h.symm)⟩
          | exact ih h

lemma readRecords_elements :
    ∀ {fl : List (List String)} {pnl : ℕ} {acc atoms : List Atom},
      readRecords fl pnl acc = .ok atoms →
      (∀ a ∈ acc, ∃ tok, a.element = normElem tok) →
      ∀ a ∈ atoms, ∃ tok, a.element = normElem tok := by
  intro fl
  induction fl with
  | nil =>
    intro pnl acc atoms h hacc a ha
    rw [readRecords] at h
    injection h with h
    subst h
    exact hacc a (List.mem_reverse.mp ha)
  | cons fields rest ih =>
    intro pnl acc atoms h hacc a ha
    rw [readRecords] at h
    split at h
    · exact ih h hacc a ha
    · split at h
      · simp at h
      · rcases h1 : pyFloat? (fields.getD 1 "") with _ | x <;>
          rcases h2 : pyFloat? (fields.getD 2 "") with _ | y <;>
          rcases h3 : pyFloat? (fields.getD 3 "") with _ | z <;>
          rw [h1, h2, h3] at h <;> try simp at h
        refine ih h ?_ a ha
        intro b hb
        rcases List.mem_cons.mp hb with rfl | hb
        · exact ⟨_, rfl⟩
        · exact hacc b hb

lemma trimStop_of_blank {lf : List (List String)} {start : ℕ} :
    ∀ {stop : ℕ}, (∀ j, start ≤ j → j < stop → lf.getD j [] = []) →
      trimStop lf start stop ≤ start := by
  intro stop
  induction stop with
  | zero => intro _; simp [trimStop]
  | succ s ih =>
    intro h
    rw [trimStop]
    by_cases hs : start ≤ s
    · rw [if_pos ⟨hs, h s hs (by omega)⟩]
      exact ih fun j h1 h2 => h j h1 (by omega)
    · rw [if_neg (by tauto)]
      omega

lemma trimStop_last {lf : List (List String)} {start stop : ℕ}
    (h : lf.getD stop [] ≠ []) : trimStop lf start (stop + 1) = stop + 1 := by
  rw [trimStop, if_neg (by tauto)]

lemma parseBody_ok_title {lf : List (List String)} {len start : ℕ} {natoms : ℤ}
    {t : String} {stru : Structure}
    (h : parseBody lf len start natoms t = .ok stru) : stru.title = t := by
  unfold parseBody at h
  split at h
  · injection h with h; rw [← h]
  · split at h
    · simp at h
    · rcases hr : readRecords (lf.drop start) start [] with e | atoms <;>
        rw [hr, countCheck] at h
      · simp at h
      · split at h
        · injection h with h; rw [← h]
        · simp at h

lemma parseBody_ok_count {lf : List (List String)} {len start : ℕ} {natoms : ℤ}
    {t : String} {stru : Structure}
    (h : parseBody lf len start natoms t = .ok stru) :
    stru.atoms = [] ∨ (stru.atoms.length : ℤ) = natoms := by
  unfold parseBody at h
  split at h
  · injection h with h; rw [← h]; exact Or.inl rfl
  · split at h
    · simp at h
    · rcases hr : readRecords (lf.drop start) start [] with e | atoms <;>
        rw [hr, countCheck] at h
      · simp at h
      · split at h
        · injection h with h; rw [← h]
          rename_i hcnt
          exact Or.inr hcnt
        · simp at h

lemma parseBody_ne_noCount {lf : List (List String)} {len start : ℕ}
    {natoms : ℤ} {t : String} {k : ℕ} :
    parseBody lf len start natoms t ≠ .error (.noCount k) := by
  intro h
  unfold parseBody at h
  split at h
  · simp at h
  · split at h
    · injection h with h; simp at h
    · rcases hr : readRecords (lf.drop start) start [] with e | atoms <;>
        rw [hr, countCheck] at h
      · injection h with h
        subst h
        rcases readRecords_error hr with ⟨k', hk | hk⟩ <;> simp at hk
      · split at h
        · simp at h
        · injection h with h; simp at h

/-! ## Lemmas: the header stage of `parseLines`, and the writer -/

lemma parseLines_eq_body {lines : List String} {w : String} {d : ℤ} {t : String}
    (h1 : (lines.map pysplit).get? (skipLead (lines.map pysplit)) = some [w])
    (h2 : canonInt? w = some d)
    (h3 : lines.get? (skipLead (lines.map pysplit) + 1) = some t) :
    Parser.parseLines lines =
      parseBody (lines.map pysplit) lines.length
        (skipLead (lines.map pysplit) + 2) d (pystrip t) := by
  unfold Parser.parseLines
  simp only [h1, h2, h3]

lemma skipLead_cons (f : List String) (rest : List (List String))
    (h1 : f ≠ []) (h2 : f.head? ≠ some "#") : skipLead (f :: rest) = 0 := by
  rw [skipLead, if_neg (not_or.mpr ⟨h1, h2⟩)]

lemma natToString_tokOk (n : ℕ) : tokOk (natToString n) :=
  ⟨natToString_toList_ne_nil n,
    fun c hc => isDigit_not_space (natToString_toList_digits n c hc)⟩

lemma pysplit_recordLine {a : Atom} (h : goodAtom a) :
    pysplit (recordLine a) =
      [a.element, formatG a.xyz.1, formatG a.xyz.2.1, formatG a.xyz.2.2] := by
  obtain ⟨he, h1, h2, h3⟩ := h
  exact pysplit_record _ _ _ _ he (pyFloat?_tokOk h1) (pyFloat?_tokOk h2)
    (pyFloat?_tokOk h3)

lemma readRecords_writer :
    ∀ (as : List Atom), (∀ a ∈ as, goodAtom a) →
      ∀ (pnl : ℕ) (acc : List Atom),
        readRecords (as.map fun a => pysplit (recordLine a)) pnl acc =
          .ok (acc.reverse ++ as.map normAtom) := by
  intro as
  induction as with
  | nil => intro _ pnl acc; simp [readRecords]
  | cons a as ih =>
    intro hg pnl acc
    have hga := hg a (List.mem_cons_self a as)
    rw [List.map_cons, readRecords, pysplit_recordLine hga,
      if_neg (by simp), if_neg (by simp)]
    rw [show ([a.element, formatG a.xyz.1, formatG a.xyz.2.1,
        formatG a.xyz.2.2].getD 1 "") = formatG a.xyz.1 from rfl,
      show ([a.element, formatG a.xyz.1, formatG a.xyz.2.1,
        formatG a.xyz.2.2].getD 2 "") = formatG a.xyz.2.1 from rfl,
      show ([a.element, formatG a.xyz.1, formatG a.xyz.2.1,
        formatG a.xyz.2.2].getD 3 "") = formatG a.xyz.2.2 from rfl,
      hga.2.1, hga.2.2.1, hga.2.2.2]
    show readRecords (as.map fun a => pysplit (recordLine a)) (pnl + 1)
        (normAtom a :: acc) = .ok (acc.reverse ++ (a :: as).map normAtom)
    rw [ih (fun b hb => hg b (List.mem_cons_of_mem a hb)) (pnl + 1)
      (normAtom a :: acc)]
    simp

lemma parse_toLines_header (title : String) (atoms : List Atom) :
    Parser.parseLines (Parser.toLines ⟨title, atoms⟩) =
      parseBody ([natToString atoms.length] :: pysplit title ::
          atoms.map (fun a => pysplit (recordLine a)))
        (atoms.length + 2) 2 (atoms.length : ℤ) (pystrip title) := by
  have hlf : (Parser.toLines ⟨title, atoms⟩).map pysplit =
      [natToString atoms.length] :: pysplit title ::
        atoms.map (fun a => pysplit (recordLine a)) := by
    show (natToString atoms.length :: title :: atoms.map recordLine).map pysplit = _
    rw [List.map_cons, List.map_cons, pysplit_single _ (natToString_tokOk atoms.length),
      List.map_map]
    rfl
  have hskip : skipLead ((Parser.toLines ⟨title, atoms⟩).map pysplit) = 0 := by
    rw [hlf]
    refine skipLead_cons _ _ (by simp) ?_
    simp only [List.head?_cons, ne_eq, Option.some.injEq]
    exact natToString_ne_hash atoms.length
  have h1 : ((Parser.toLines ⟨title, atoms⟩).map pysplit).get?
      (skipLead ((Parser.toLines ⟨title, atoms⟩).map pysplit)) =
      some [natToString atoms.length] := by
    rw [hskip, hlf]
    rfl
  have h3 : (Parser.toLines ⟨title, atoms⟩).get?
      (skipLead ((Parser.toLines ⟨title, atoms⟩).map pysplit) + 1) = some title := by
    rw [hskip]
    rfl
  have hlen : (Parser.toLines ⟨title, atoms⟩).length = atoms.length + 2 := by
    show (natToString atoms.length :: title :: atoms.map recordLine).length = _
    simp
  rw [parseLines_eq_body h1 (canonInt?_natToString atoms.length) h3, hskip, hlf, hlen]

lemma parse_toLines (title : String) (atoms : List Atom)
    (hgood : ∀ a ∈ atoms, goodAtom a) (htitle : pystrip title = title) :
    Parser.parseLines (Parser.toLines ⟨title, atoms⟩) =
      .ok ⟨title, atoms.map normAtom⟩ := by
  rw [parse_toLines_header, htitle]
  cases atoms with
  | nil =>
    unfold parseBody
    rw [if_pos (Or.inl (by simp))]
    rfl
  | cons a as =>
    have hrecne : ∀ f ∈ (a :: as).map (fun x => pysplit (recordLine x)), f ≠ [] := by
      intro f hf
      obtain ⟨b, hb, rfl⟩ := List.mem_map.mp hf
      rw [pysplit_recordLine (hgood b hb)]
      simp
    have hlast : ([natToString (a :: as).length] :: pysplit title ::
        (a :: as).map (fun x => pysplit (recordLine x))).getD ((a :: as).length + 1)
        [] ≠ [] := by
      show ((a :: as).map (fun x => pysplit (recordLine x))).getD as.length [] ≠ []
      rw [List.getD_eq_getElem _ _ (by simp)]
      exact hrecne _ (List.getElem_mem _)
    have htrim : trimStop ([natToString (a :: as).length] :: pysplit title ::
        (a :: as).map (fun x => pysplit (recordLine x))) 2 ((a :: as).length + 2) =
        (a :: as).length + 2 :=
      trimStop_last hlast
    unfold parseBody
    rw [if_neg (by
      rintro (h0 | hle)
      · simp only [List.length_cons] at h0
        omega
      · rw [htrim] at hle
        simp only [List.length_cons] at hle
        omega)]
    rw [if_neg (by
      show ¬ (((a :: as).map (fun x => pysplit (recordLine x))).getD 0 []).length ≠ 4
      rw [List.map_cons, List.getD_cons_zero, pysplit_recordLine (hgood a (by simp))]
      simp)]
    rw [show ([natToString (a :: as).length] :: pysplit title ::
        (a :: as).map (fun x => pysplit (recordLine x))).drop 2 =
        (a :: as).map (fun x => pysplit (recordLine x)) from rfl]
    rw [readRecords_writer (a :: as) hgood 2 [], countCheck, if_pos (by simp)]
    simp

/-! ## Lemmas: substring containment, and success implies a valid header -/

lemma strContains_parts (a s b : String) : strContains (a ++ s ++ b) s := ⟨a, b, rfl⟩

lemma strContains_self (s : String) : strContains s s :=
  ⟨"", "", by apply String.ext; simp [String.data_append]⟩

lemma strContains_suffix (a s : String) : strContains (a ++ s) s :=
  ⟨a, "", by apply String.ext; simp [String.data_append]⟩

lemma parseLines_ok_header {lines : List String} {stru : Structure}
    (h : Parser.parseLines lines = .ok stru) :
    ∃ w d t, (lines.map pysplit).get? (skipLead (lines.map pysplit)) = some [w] ∧
      canonInt? w = some d ∧
      lines.get? (skipLead (lines.map pysplit) + 1) = some t ∧
      parseBody (lines.map pysplit) lines.length
        (skipLead (lines.map pysplit) + 2) d (pystrip t) = .ok stru := by
  rcases hget : (lines.map pysplit).get? (skipLead (lines.map pysplit)) with _ | lfs
  · unfold Parser.parseLines at h
    simp only [hget] at h
    exact Except.noConfusion h
  · match lfs, hget with
    | [], hget =>
      unfold Parser.parseLines at h
      simp only [hget] at h
      exact Except.noConfusion h
    | [w], hget =>
      rcases hci : canonInt? w with _ | d
      · unfold Parser.parseLines at h
        simp only [hget, hci] at h
        exact Except.noConfusion h
      · rcases hti : lines.get? (skipLead (lines.map pysplit) + 1) with _ | t
        · unfold Parser.parseLines at h
          simp only [hget, hci, hti] at h
          exact Except.noConfusion h
        · exact ⟨w, d, t, rfl, hci, rfl,
            by rw [← parseLines_eq_body hget hci hti]; exact h⟩
    | w :: v :: r, hget =>
      unfold Parser.parseLines at h
      simp only [hget] at h
      exact Except.noConfusion h

lemma parseBody_ok_elements {lf : List (List String)} {len start : ℕ}
    {natoms : ℤ} {t : String} {stru : Structure}
    (h : parseBody lf len start natoms t = .ok stru) :
    ∀ a ∈ stru.atoms, ∃ tok, a.element = normElem tok := by
  unfold parseBody at h
  split at h
  · injection h with h
    rw [← h]
    intro a ha
    simp at ha
  · split at h
    · simp at h
    · rcases hr : readRecords (lf.drop start) start [] with e | atoms <;>
        rw [hr, countCheck] at h
      · simp at h
      · split at h
        · injection h with h
          rw [← h]
          exact readRecords_elements hr (by simp)
        · simp at h

/-! ## Lemmas: integer and rational renderings read back -/

lemma takeWhile_all {p : Char → Bool} :
    ∀ {l : List Char}, (∀ c ∈ l, p c = true) → l.takeWhile p = l := by
  intro l
  induction l with
  | nil => intro _; rfl
  | cons c t ih =>
    intro h
    rw [List.takeWhile_cons, if_pos (h c (List.mem_cons_self c t)),
      ih fun d hd => h d (List.mem_cons_of_mem c hd)]

lemma dropWhile_all {p : Char → Bool} :
    ∀ {l : List Char}, (∀ c ∈ l, p c = true) → l.dropWhile p = [] := by
  intro l
  induction l with
  | nil => intro _; rfl
  | cons c t ih =>
    intro h
    rw [List.dropWhile_cons, if_pos (h c (List.mem_cons_self c t))]
    exact ih fun d hd => h d (List.mem_cons_of_mem c hd)

lemma takeWhile_middle {p : Char → Bool} {t r : List Char} {c : Char}
    (ht : ∀ x ∈ t, p x = true) (hc : p c = false) :
    (t ++ c :: r).takeWhile p = t ∧ (t ++ c :: r).dropWhile p = c :: r := by
  induction t with
  | nil => simp [List.takeWhile_cons, List.dropWhile_cons, hc]
  | cons d t ih =>
    have hd := ht d (List.mem_cons_self d t)
    have hih := ih fun x hx => ht x (List.mem_cons_of_mem d hx)
    constructor
    · rw [List.cons_append, List.takeWhile_cons, if_pos hd, hih.1]
    · rw [List.cons_append, List.dropWhile_cons, if_pos hd, hih.2]

lemma qOfParts_zero_exp (sgn : ℤ) (m : ℕ) :
    qOfParts sgn m 0 = (sgn : ℚ) * (m : ℚ) := by
  unfold qOfParts
  rw [if_pos le_rfl]
  rw [show ((0 : ℤ)).toNat = 0 from rfl, pow_zero, mul_one, Rat.mkRat_one]
  push_cast
  ring

lemma pyFloatUnsigned_digits {sgn : ℤ} {cs : List Char} (hne : cs ≠ [])
    (hd : ∀ c ∈ cs, c.isDigit = true) :
    pyFloatUnsigned sgn cs = some ((sgn : ℚ) * (digitsToNat cs : ℚ)) := by
  unfold pyFloatUnsigned pyFloatBody
  rw [takeWhile_all hd, dropWhile_all hd]
  rw [if_neg (by simp), if_neg hne]
  rw [show readExpPart [] = some 0 from rfl]
  rw [Option.map_some', qOfParts_zero_exp]

lemma intToString_toList (n : ℤ) :
    (n < 0 ∧ (intToString n).toList = '-' :: (natToString n.natAbs).toList) ∨
    (0 ≤ n ∧ (intToString n).toList = (natToString n.toNat).toList) := by
  unfold intToString
  split
  · exact Or.inl ⟨by omega, by rw [toList_append]; rfl⟩
  · exact Or.inr ⟨by omega, rfl⟩

lemma pyFloat?_natToString (m : ℕ) : pyFloat? (natToString m) = some ((m : ℚ)) := by
  obtain ⟨c, rest, hc, hdig⟩ := natToString_head_digit m
  have hplus : c ≠ '+' := by rintro rfl; simp [Char.isDigit] at hdig
  have hminus : c ≠ '-' := by rintro rfl; simp [Char.isDigit] at hdig
  unfold pyFloat?
  rw [hc]
  rw [if_neg (by simp [hplus]), if_neg (by simp [hminus]), ← hc]
  rw [pyFloatUnsigned_digits (natToString_toList_ne_nil m) (natToString_toList_digits m),
    natToString_val]
  simp

lemma pyFloat?_intToString (n : ℤ) : pyFloat? (intToString n) = some ((n : ℚ)) := by
  rcases intToString_toList n with ⟨hn, hl⟩ | ⟨hn, hl⟩
  · unfold pyFloat?
    rw [hl]
    rw [if_neg (by simp), if_pos (by simp)]
    rw [show ('-' :: (natToString n.natAbs).toList).tail =
      (natToString n.natAbs).toList from rfl]
    rw [pyFloatUnsigned_digits (natToString_toList_ne_nil _) (natToString_toList_digits _),
      natToString_val]
    congr 1
    have h4 : (n.natAbs : ℤ) = -n := by omega
    have h5 : ((n.natAbs : ℕ) : ℚ) = -((n : ℤ) : ℚ) := by
      rw [← Int.cast_natCast (R := ℚ), h4, Int.cast_neg]
    rw [h5]
    push_cast
    ring
  · have h6 : intToString n = natToString n.toNat := String.ext hl
    rw [h6, pyFloat?_natToString]
    congr 1
    have h4 : (n.toNat : ℤ) = n := by omega
    rw [← Int.cast_natCast (R := ℚ), h4]

lemma pyIntTok?_intToString (n : ℤ) : pyIntTok? (intToString n).toList = some n := by
  rcases intToString_toList n with ⟨hn, hl⟩ | ⟨hn, hl⟩
  · rw [hl, pyIntTok?]
    rw [if_neg (by decide), if_pos rfl,
      if_pos ⟨natToString_toList_ne_nil _, by
        simpa using natToString_toList_digits n.natAbs⟩, natToString_val]
    congr 1
    omega
  · rw [hl, pyIntTok?_digits (natToString_toList_ne_nil _) (natToString_toList_digits _),
      natToString_val]
    congr 1
    omega

lemma pyIntTok?_natToString (m : ℕ) :
    pyIntTok? (natToString m).toList = some ((m : ℤ)) := by
  rw [pyIntTok?_digits (natToString_toList_ne_nil m) (natToString_toList_digits m),
    natToString_val]

lemma intToString_chars (n : ℤ) :
    ∀ c ∈ (intToString n).toList, c = '-' ∨ c.isDigit = true := by
  rcases intToString_toList n with ⟨hn, hl⟩ | ⟨hn, hl⟩ <;> rw [hl]
  · intro c hc
    rcases List.mem_cons.mp hc with rfl | hc
    · exact Or.inl rfl
    · exact Or.inr (natToString_toList_digits _ c hc)
  · intro c hc
    exact Or.inr (natToString_toList_digits _ c hc)

lemma intToString_no_slash (n : ℤ) :
    ∀ c ∈ (intToString n).toList, (c != '/') = true := by
  intro c hc
  rcases intToString_chars n c hc with rfl | h
  · decide
  · simp only [bne_iff_ne, ne_eq]
    rintro rfl
    exact absurd h (by decide)

lemma intToString_toList_ne_nil (n : ℤ) : (intToString n).toList ≠ [] := by
  rcases intToString_toList n with ⟨hn, hl⟩ | ⟨hn, hl⟩ <;> rw [hl]
  · simp
  · exact natToString_toList_ne_nil _

lemma readRat?_ratToString (v : ℚ) : readRat? (ratToString v) = some v := by
  unfold ratToString
  by_cases hd : v.den = 1
  · rw [if_pos hd]
    unfold readRat?
    rw [dropWhile_all (intToString_no_slash v.num)]
    show pyFloat? (intToString v.num) = some v
    rw [pyFloat?_intToString]
    exact congrArg some ((Rat.den_eq_one_iff v).mp hd)
  · rw [if_neg hd]
    unfold readRat?
    have hsplit : (intToString v.num ++ "/" ++ natToString v.den).toList
        = (intToString v.num).toList ++ '/' :: (natToString v.den).toList := by
      rw [toList_append, toList_append]
      simp [List.append_assoc]
    obtain ⟨htake, hdrop⟩ := takeWhile_middle (p := (· != '/')) (c := '/')
      (r := (natToString v.den).toList) (intToString_no_slash v.num) (by decide)
    rw [hsplit, hdrop, htake, pyIntTok?_intToString]
    show (match some v.num, pyIntTok? (natToString v.den).toList with
      | some zn, some zd => if zd ≤ 0 then none else some (Rat.divInt zn zd)
      | _, _ => none) = some v
    rw [pyIntTok?_natToString]
    show (if ((v.den : ℕ) : ℤ) ≤ 0 then none
      else some (Rat.divInt v.num ((v.den : ℕ) : ℤ))) = some v
    rw [if_neg (by have := v.den_pos; omega)]
    exact congrArg some (Rat.num_divInt_den v)

lemma ratToString_tokOk (v : ℚ) : tokOk (ratToString v) := by
  constructor
  · unfold ratToString
    split
    · exact intToString_toList_ne_nil v.num
    · rw [toList_append, toList_append]
      simp
  · intro c hc
    revert hc
    unfold ratToString
    split <;> intro hc
    · rcases intToString_chars v.num c hc with rfl | h
      · rfl
      · exact isDigit_not_space h
    · rw [toList_append, toList_append] at hc
      rcases List.mem_append.mp hc with hc | hc
      · rcases List.mem_append.mp hc with hc | hc
        · rcases intToString_chars v.num c hc with rfl | h
          · rfl
          · exact isDigit_not_space h
        · rcases List.mem_singleton.mp (by simpa using hc) with rfl
          rfl
      · exact isDigit_not_space (natToString_toList_digits _ c hc)

/-! ## Lemmas: tokenizing the discus header lines -/

lemma pysplit_keyword (w t : String) (hw : tokOk w) :
    pysplit (w ++ " " ++ t) = w :: pysplit t := by
  unfold pysplit
  rw [show (w ++ " " ++ t).toList
      = w.toList ++ (List.replicate (0 + 1) ' ' ++ t.toList) by
    simp [toList_append, show (" " : String).toList = [' '] from rfl]]
  rw [tokAux_token_sep w.toList hw.1 hw.2 0, mk_toList]

lemma pysplit_title_line (t : String) :
    pysplit ("title " ++ t) = "title" :: pysplit t := by
  rw [show ("title " : String) = "title" ++ " " from by decide]
  exact pysplit_keyword "title" t (by decide)

lemma pysplit_spcgr_line (t : String) :
    pysplit ("spcgr " ++ t) = "spcgr" :: pysplit t := by
  rw [show ("spcgr " : String) = "spcgr" ++ " " from by decide]
  exact pysplit_keyword "spcgr" t (by decide)

lemma pysplit_shape_sphere (v : String) (hv : tokOk v) :
    pysplit ("shape   sphere, " ++ v) = ["shape", "sphere,", v] := by
  unfold pysplit
  rw [show ("shape   sphere, " ++ v).toList
      = "shape".toList ++ (List.replicate (2 + 1) ' ' ++
        ("sphere,".toList ++ (List.replicate (0 + 1) ' ' ++ v.toList))) by
    rw [toList_append, show ("shape   sphere, ").toList
        = "shape".toList ++ (List.replicate (2 + 1) ' ' ++
          ("sphere,".toList ++ List.replicate (0 + 1) ' ')) from by decide]
    simp [List.append_assoc]]
  rw [tokAux_token_sep "shape".toList (by decide) (by decide) 2,
    tokAux_token_sep "sphere,".toList (by decide) (by decide) 0,
    tokAux_final v.toList hv.1 hv.2, mk_toList, mk_toList, mk_toList]

lemma discusShapeScan_skip {l : String} {rest : List String} {acc : ℚ × ℚ}
    (h1 : (pysplit l).head? ≠ some "atoms") (h2 : (pysplit l).head? ≠ some "shape") :
    discusShapeScan (l :: rest) acc = discusShapeScan rest acc := by
  rw [discusShapeScan, if_neg h1, if_neg h2]

lemma discusShapeScan_atoms {l : String} {rest : List String} {acc : ℚ × ℚ}
    (h1 : (pysplit l).head? = some "atoms") :
    discusShapeScan (l :: rest) acc = .ok acc := by
  rw [discusShapeScan, if_pos h1]

/-! ## Lemmas: error messages, and the count-stage dichotomy -/

lemma noCount_message_contains (n : ℕ) :
    strContains ((XyzErr.noCount n).message) "missing number of atoms" := by
  refine ⟨natToString n ++ ": invalid XYZ format, ", "", ?_⟩
  apply String.ext
  simp only [XyzErr.message, String.data_append, List.append_assoc]
  congr 1

lemma colMismatch_message_contains (n : ℕ) :
    strContains ((XyzErr.colMismatch n).message)
      "all lines must have the same number of columns" := by
  refine ⟨natToString n ++ ": ", "", ?_⟩
  apply String.ext
  simp only [XyzErr.message, String.data_append, List.append_assoc]
  congr 1

lemma parseLines_noCount_cases (lines : List String) :
    (Parser.parseLines lines =
        .error (.noCount (skipLead (lines.map pysplit) + 1)) ∧
      countStageOk lines = false) ∨
    ((∀ k, Parser.parseLines lines ≠ .error (.noCount k)) ∧
      countStageOk lines = true) := by
  rcases hget : (lines.map pysplit).get? (skipLead (lines.map pysplit)) with _ | lfs
  · left
    exact ⟨by unfold Parser.parseLines; simp only [hget],
      by unfold countStageOk; rw [hget]⟩
  · match lfs, hget with
    | [], hget =>
      left
      exact ⟨by unfold Parser.parseLines; simp only [hget],
        by unfold countStageOk; rw [hget]⟩
    | [w], hget =>
      rcases hci : canonInt? w with _ | d
      · left
        refine ⟨by unfold Parser.parseLines; simp only [hget, hci], ?_⟩
        unfold countStageOk
        rw [hget]
        show ((canonInt? w).isSome &&
          (lines.get? (skipLead (lines.map pysplit) + 1)).isSome) = false
        rw [hci]
        rfl
      · rcases hti : lines.get? (skipLead (lines.map pysplit) + 1) with _ | t
        · left
          refine ⟨by unfold Parser.parseLines; simp only [hget, hci, hti], ?_⟩
          unfold countStageOk
          rw [hget]
          show ((canonInt? w).isSome &&
            (lines.get? (skipLead (lines.map pysplit) + 1)).isSome) = false
          rw [hci, hti]
          rfl
        · right
          refine ⟨?_, ?_⟩
          · intro k hk
            rw [parseLines_eq_body hget hci hti] at hk
            exact parseBody_ne_noCount hk
          · unfold countStageOk
            rw [hget]
            show ((canonInt? w).isSome &&
              (lines.get? (skipLead (lines.map pysplit) + 1)).isSome) = true
            rw [hci, hti]
            rfl
    | w :: v :: r, hget =>
      left
      exact ⟨by unfold Parser.parseLines; simp only [hget],
        by unfold countStageOk; rw [hget]⟩

/-! ## The claims -/

/-- C1, counterexample: the XYZ round trip does not reproduce coordinates
exactly — the writer's `%g` format keeps only 6 significant digits, so the
single-atom structure with x-coordinate 0.1234567 reads back with
x = 0.123457 ≠ 0.1234567 (count and title survive, the coordinate does not). -/
theorem xyz_roundtrip_counterexample :
    Parser.parseLines (Parser.toLines
        ⟨"t", [⟨"C", (mkRat 1234567 10000000, 0, 0)⟩]⟩) =
      .ok ⟨"t", [⟨"C", (mkRat 123457 1000000, 0, 0)⟩]⟩ ∧
    mkRat 123457 1000000 ≠ mkRat 1234567 10000000 := by
  decide

/-- C1 (amended): parsing the writer's output reproduces the structure's
atom count exactly and its title up to `strip`, and reproduces every
coordinate exactly *provided* each coordinate survives the writer's
6-significant-digit `%g` formatting (`pyFloat? (formatG c) = some c`) and
the title carries no surrounding whitespace; element symbols come back
case-normalized, which the claim does not constrain. -/
theorem xyz_roundtrip_amended (S : Structure)
    (hgood : ∀ a ∈ S.atoms, goodAtom a)
    (htitle : pystrip S.title = S.title) :
    Parser.parseLines (Parser.toLines S) = .ok ⟨S.title, S.atoms.map normAtom⟩ ∧
    (S.atoms.map normAtom).length = S.atoms.length ∧
    (S.atoms.map normAtom).map Atom.xyz = S.atoms.map Atom.xyz :=
  ⟨parse_toLines S.title S.atoms hgood htitle, by simp,
    by simp [List.map_map, Function.comp_def, normAtom]⟩

/-- C1, witness: the amended round trip at a concrete one-atom structure. -/
theorem xyz_roundtrip_amended_witness :
    Parser.parseLines (Parser.toLines ⟨"t1", [⟨"C", (0, 1, mkRat 5 2)⟩]⟩) =
      .ok ⟨"t1", [⟨"C", (0, 1, mkRat 5 2)⟩].map normAtom⟩ :=
  (xyz_roundtrip_amended ⟨"t1", [⟨"C", (0, 1, mkRat 5 2)⟩]⟩
    (by decide) (by decide)).1

/-- C2, counterexample: a declared count of 3 with *no* record lines at all
returns an empty structure successfully — the early return for an empty
record block skips the final count check, so "read differs from declared"
does not always fail. -/
theorem xyz_count_check_counterexample :
    Parser.parseLines ["3", "t"] = .ok ⟨"t", []⟩ ∧
    canonInt? "3" = some 3 ∧ (0 : ℤ) ≠ 3 := by
  decide

/-- C2 (amended): when the record block is nonempty (so the early return
for an empty structure is not taken) and the record loop succeeds with a
number of atoms different from the declared count, `parseLines` fails with
the summary error whose message contains "expected N atoms, read M"; in
particular declared count 3 with two records fails with a message
containing "expected 3 atoms, read 2". -/
theorem xyz_count_check_amended :
    (∀ (lines : List String) (w t : String) (d : ℤ) (atoms : List Atom),
      (lines.map pysplit).get? (skipLead (lines.map pysplit)) = some [w] →
      canonInt? w = some d →
      lines.get? (skipLead (lines.map pysplit) + 1) = some t →
      ¬ (d = 0 ∨ trimStop (lines.map pysplit) (skipLead (lines.map pysplit) + 2)
          lines.length ≤ skipLead (lines.map pysplit) + 2) →
      ((lines.map pysplit).getD (skipLead (lines.map pysplit) + 2) []).length = 4 →
      readRecords ((lines.map pysplit).drop (skipLead (lines.map pysplit) + 2))
        (skipLead (lines.map pysplit) + 2) [] = .ok atoms →
      (atoms.length : ℤ) ≠ d →
      Parser.parseLines lines = .error (.countMismatch d atoms.length) ∧
      strContains ((XyzErr.countMismatch d atoms.length).message)
        ("expected " ++ intToString d ++ " atoms, read " ++
          natToString atoms.length)) ∧
    (Parser.parseLines ["3", "t", "C 0 0 0", "O 1 1 1"] =
        .error (.countMismatch 3 2) ∧
      strContains ((XyzErr.countMismatch 3 2).message) "expected 3 atoms, read 2") := by
  constructor
  · intro lines w t d atoms h1 h2 h3 h4 h5 h6 h7
    constructor
    · rw [parseLines_eq_body h1 h2 h3]
      unfold parseBody
      rw [if_neg h4, if_neg (by rw [h5]; simp), h6, countCheck, if_neg h7]
    · exact strContains_self _
  · exact ⟨by decide, ⟨"", "", by decide⟩⟩

/-- C2, witness: the amended count check applied at declared count 3 with
two record lines. -/
theorem xyz_count_check_amended_witness :
    Parser.parseLines ["3", "t", "C 0 0 0", "O 1 1 1"] =
      .error (.countMismatch 3 2) :=
  (xyz_count_check_amended.1 ["3", "t", "C 0 0 0", "O 1 1 1"] "3" "t" 3
    [⟨"C", (0, 0, 0)⟩, ⟨"O", (1, 1, 1)⟩] (by decide) (by decide) (by decide)
    (by decide) (by decide) (by decide) (by decide)).1

/-- C3, counterexample: the token "05" is a single token and a valid
base-10 integer (Python `int("05")` accepts it), yet `parseLines` rejects
it — the code additionally requires the canonical rendering test
`str(int(w)) == w`, which "05" fails. -/
theorem xyz_count_line_counterexample :
    pysplit "05" = ["05"] ∧ isValidBase10Integer "05" = true ∧
    Parser.parseLines ["05", "t"] = .error (.noCount 1) := by
  decide

/-- C3 (amended): after skipping leading blank and `#` lines, `parseLines`
raises the "missing number of atoms" error at the 1-based line `start+1`
exactly when the count stage fails — i.e. unless the first remaining line
tokenizes to exactly one token in *canonical* base-10 form
(`str(int(w)) == w`, so "05" or "+5" are rejected) *and* a title line
follows; the error's line number is always `start+1` and its message
contains "missing number of atoms". -/
theorem xyz_count_line_amended (lines : List String) :
    (Parser.parseLines lines =
        .error (.noCount (skipLead (lines.map pysplit) + 1)) ↔
      countStageOk lines = false) ∧
    (∀ k, Parser.parseLines lines = .error (.noCount k) →
      k = skipLead (lines.map pysplit) + 1) ∧
    strContains ((XyzErr.noCount (skipLead (lines.map pysplit) + 1)).message)
      "missing number of atoms" := by
  refine ⟨?_, ?_, noCount_message_contains _⟩
  · rcases parseLines_noCount_cases lines with ⟨he, hs⟩ | ⟨hne, hs⟩
    · exact iff_of_true he hs
    · exact iff_of_false (hne _) (by rw [hs]; simp)
  · rcases parseLines_noCount_cases lines with ⟨he, hs⟩ | ⟨hne, hs⟩
    · intro k hk
      rw [he] at hk
      injection hk with hk
      injection hk with hk
      exact hk.symm
    · intro k hk
      exact absurd hk (hne k)

/-- C3, witness: a two-token first line fails the count stage and produces
the error at line 1. -/
theorem xyz_count_line_amended_witness :
    Parser.parseLines ["x y", "t"] =
      .error (.noCount (skipLead ((["x y", "t"]).map pysplit) + 1)) :=
  (xyz_count_line_amended ["x y", "t"]).1.mpr (by decide)

/-- C4, counterexample: a blank line at the *start* of the record block is
not skipped — with declared count 1, a blank line 3 and a wellformed
4-column record on line 4, the parse fails at line 3 instead of skipping
the blank and reading the record. -/
theorem xyz_columns_counterexample :
    Parser.parseLines ["1", "t", "", "C 0 0 0"] = .error (.badColumnCount 3) ∧
    pysplit "" = [] ∧ pysplit "C 0 0 0" = ["C", "0", "0", "0"] ∧
    (["C", "0", "0", "0"] : List String).length = 4 := by
  decide

/-- C4 (amended): the *first line of the record block* (blank or not)
fixes the column count and must have exactly 4 columns or the parse fails
at that line; a subsequent nonblank line with a different column count
fails at its line with a message containing "all lines must have the same
number of columns"; blank lines *after* the first block line are skipped
and do not count as atoms. -/
theorem xyz_columns_amended :
    (∀ (lines : List String) (w t : String) (d : ℤ),
      (lines.map pysplit).get? (skipLead (lines.map pysplit)) = some [w] →
      canonInt? w = some d →
      lines.get? (skipLead (lines.map pysplit) + 1) = some t →
      ¬ (d = 0 ∨ trimStop (lines.map pysplit) (skipLead (lines.map pysplit) + 2)
          lines.length ≤ skipLead (lines.map pysplit) + 2) →
      ((lines.map pysplit).getD (skipLead (lines.map pysplit) + 2) []).length ≠ 4 →
      Parser.parseLines lines =
        .error (.badColumnCount (skipLead (lines.map pysplit) + 2 + 1))) ∧
    (∀ (fields : List String) (rest : List (List String)) (pnl : ℕ)
        (acc : List Atom),
      fields ≠ [] → fields.length ≠ 4 →
      readRecords (fields :: rest) pnl acc = .error (.colMismatch (pnl + 1)) ∧
      strContains ((XyzErr.colMismatch (pnl + 1)).message)
        "all lines must have the same number of columns") ∧
    (∀ (rest : List (List String)) (pnl : ℕ) (acc : List Atom),
      readRecords ([] :: rest) pnl acc = readRecords rest (pnl + 1) acc) := by
  refine ⟨?_, ?_, ?_⟩
  · intro lines w t d h1 h2 h3 h4 h5
    rw [parseLines_eq_body h1 h2 h3]
    unfold parseBody
    rw [if_neg h4, if_pos h5]
  · intro fields rest pnl acc hne hlen
    exact ⟨by rw [readRecords, if_neg hne, if_pos hlen],
      colMismatch_message_contains _⟩
  · intro rest pnl acc
    rw [readRecords, if_pos rfl]

/-- C4, witness: a 3-column first record line fails at its line. -/
theorem xyz_columns_amended_witness :
    Parser.parseLines ["1", "t", "C 0 0"] =
      .error (.badColumnCount (skipLead ((["1", "t", "C 0 0"]).map pysplit) + 2 + 1)) :=
  (xyz_columns_amended.1 ["1", "t", "C 0 0"] "1" "t" 1 (by decide) (by decide)
    (by decide) (by decide) (by decide))

/-- C5, counterexample: the title is *not* taken verbatim — the code
applies `strip()`, so the title line " T " is stored as "T". -/
theorem xyz_title_counterexample :
    Parser.parseLines ["0", " T "] = .ok ⟨"T", []⟩ ∧ ("T" : String) ≠ " T " := by
  decide

/-- C5 (amended): on every accepted input the returned structure's title
equals the line immediately following the count line *stripped of leading
and trailing whitespace* (so it equals the raw line exactly when that line
has no surrounding whitespace). -/
theorem xyz_title_amended :
    ∀ (lines : List String) (stru : Structure),
      Parser.parseLines lines = .ok stru →
      ∃ t, lines.get? (skipLead (lines.map pysplit) + 1) = some t ∧
        stru.title = pystrip t := by
  intro lines stru h
  obtain ⟨w, d, t, h1, h2, h3, hb⟩ := parseLines_ok_header h
  exact ⟨t, h3, parseBody_ok_title hb⟩

/-- C5, witness: the title lemma applied to a concrete accepted input. -/
theorem xyz_title_amended_witness :
    ∃ t, (["0", " T x "] : List String).get?
        (skipLead ((["0", " T x "]).map pysplit) + 1) = some t ∧
      (Structure.mk "T x" []).title = pystrip t :=
  xyz_title_amended ["0", " T x "] ⟨"T x", []⟩ (by decide)

/-- C6: in the spec-modelled DISCUS shape slice, a structure with nonzero
`spdiameter` writes a line matching `shape\s+sphere,\s*v` (here: a line
whose tokens are `shape`, `sphere,`, and the rendered value) and the
written text parses back to the identical `spdiameter`; with
`spdiameter = 0` and `stepcut = 0` the written text contains no line whose
first token is `shape`. -/
theorem discus_shape_roundtrip (h : DiscusHeader) :
    (h.spdiameter ≠ 0 →
      (∃ l ∈ discusWrite h,
        pysplit l = ["shape", "sphere,", ratToString h.spdiameter]) ∧
      discusShape (discusWrite h) = .ok (h.spdiameter, 0)) ∧
    (h.spdiameter = 0 → h.stepcut = 0 →
      ∀ l ∈ discusWrite h, (pysplit l).head? ≠ some "shape") := by
  constructor
  · intro hne
    have hsh : shapeLines h.spdiameter h.stepcut =
        ["shape   sphere, " ++ ratToString h.spdiameter] := by
      unfold shapeLines
      rw [if_pos hne]
    have hps := pysplit_shape_sphere (ratToString h.spdiameter) (ratToString_tokOk _)
    constructor
    · exact ⟨"shape   sphere, " ++ ratToString h.spdiameter,
        by unfold discusWrite; rw [hsh]; simp, hps⟩
    · unfold discusShape discusWrite
      rw [hsh]
      rw [discusShapeScan_skip
        (by
          rw [pysplit_title_line]
          simp only [List.head?_cons, ne_eq, Option.some.injEq]
          decide)
        (by
          rw [pysplit_title_line]
          simp only [List.head?_cons, ne_eq, Option.some.injEq]
          decide)]
      rw [discusShapeScan_skip
        (by
          rw [pysplit_spcgr_line]
          simp only [List.head?_cons, ne_eq, Option.some.injEq]
          decide)
        (by
          rw [pysplit_spcgr_line]
          simp only [List.head?_cons, ne_eq, Option.some.injEq]
          decide)]
      rw [show (["shape   sphere, " ++ ratToString h.spdiameter] ++ ["atoms"])
          = ("shape   sphere, " ++ ratToString h.spdiameter) :: ["atoms"] from rfl]
      rw [discusShapeScan]
      rw [if_neg (by
          rw [hps]
          simp only [List.head?_cons, ne_eq, Option.some.injEq]
          decide),
        if_pos (by rw [hps]; rfl)]
      rw [hps]
      rw [show (["shape", "sphere,", ratToString h.spdiameter] : List String).tail
          = ["sphere,", ratToString h.spdiameter] from rfl]
      unfold parseShapeArgs
      rw [if_pos (show (["sphere,", ratToString h.spdiameter] :
        List String).head? = some "sphere," from rfl)]
      rw [show (["sphere,", ratToString h.spdiameter].getD 1 "")
          = ratToString h.spdiameter from rfl]
      rw [readRat?_ratToString]
      show discusShapeScan ["atoms"] (h.spdiameter, 0) = .ok (h.spdiameter, 0)
      rw [discusShapeScan_atoms (by decide)]
  · intro h0 hc l hl
    have hsh : shapeLines h.spdiameter h.stepcut = [] := by
      unfold shapeLines
      rw [if_neg (by simp [h0]), if_neg (by simp [hc])]
    unfold discusWrite at hl
    rw [hsh] at hl
    simp only [List.nil_append, List.mem_cons, List.mem_singleton,
      List.not_mem_nil, or_false] at hl
    rcases hl with rfl | rfl | rfl
    · rw [pysplit_title_line]
      simp only [List.head?_cons, ne_eq, Option.some.injEq]
      decide
    · rw [pysplit_spcgr_line]
      simp only [List.head?_cons, ne_eq, Option.some.injEq]
      decide
    · decide

/-- C6, witness: the shape round trip at `spdiameter = 13`. -/
theorem discus_shape_roundtrip_witness :
    (∃ l ∈ discusWrite ⟨"Ni", "Fm-3m", 13, 0⟩,
      pysplit l = ["shape", "sphere,",
        ratToString (DiscusHeader.mk "Ni" "Fm-3m" 13 0).spdiameter]) ∧
    discusShape (discusWrite ⟨"Ni", "Fm-3m", 13, 0⟩) =
      .ok ((DiscusHeader.mk "Ni" "Fm-3m" 13 0).spdiameter, 0) :=
  (discus_shape_roundtrip ⟨"Ni", "Fm-3m", 13, 0⟩).1 (by decide)

/-- C7: `parseLines` never returns a partial structure — every returned
structure either is empty (the early return for an empty record block) or
carries exactly the declared number of atoms; any failure is returned as a
format error value and no structure at all.  In this pure embedding the
input line list is a value the function cannot mutate, mirroring the
source, which only reads `lines` and builds a fresh local `Structure`. -/
theorem xyz_atomicity :
    ∀ (lines : List String) (stru : Structure),
      Parser.parseLines lines = .ok stru →
      stru.atoms = [] ∨
        ∃ w d, (lines.map pysplit).get? (skipLead (lines.map pysplit)) = some [w] ∧
          canonInt? w = some d ∧ (stru.atoms.length : ℤ) = d := by
  intro lines stru h
  obtain ⟨w, d, t, h1, h2, h3, hb⟩ := parseLines_ok_header h
  rcases parseBody_ok_count hb with he | hc
  · exact Or.inl he
  · exact Or.inr ⟨w, d, h1, h2, hc⟩

/-- C7, witness: atomicity at a concrete accepted input. -/
theorem xyz_atomicity_witness :
    (Structure.mk "t" [⟨"C", (0, 0, 0)⟩, ⟨"O", (1, 1, 1)⟩]).atoms = [] ∨
      ∃ w d, ((["2", "t", "C 0 0 0", "O 1 1 1"]).map pysplit).get?
          (skipLead ((["2", "t", "C 0 0 0", "O 1 1 1"]).map pysplit)) = some [w] ∧
        canonInt? w = some d ∧
        (((Structure.mk "t" [⟨"C", (0, 0, 0)⟩, ⟨"O", (1, 1, 1)⟩]).atoms.length : ℤ)) = d :=
  xyz_atomicity ["2", "t", "C 0 0 0", "O 1 1 1"]
    ⟨"t", [⟨"C", (0, 0, 0)⟩, ⟨"O", (1, 1, 1)⟩]⟩ (by decide)

/-- C8: every element symbol stored by `parseLines` is the normalization
of some input token (first character uppercased, the rest lowercased); in
particular the tokens `NA`, `na` and `Na` all normalize to `Na`, and the
input with those three records parses to three `Na` atoms. -/
theorem xyz_element_normalization :
    (∀ (lines : List String) (stru : Structure),
      Parser.parseLines lines = .ok stru →
      ∀ a ∈ stru.atoms, ∃ tok, a.element = normElem tok) ∧
    normElem "NA" = "Na" ∧ normElem "na" = "Na" ∧ normElem "Na" = "Na" ∧
    Parser.parseLines ["3", "t", "NA 0 0 0", "na 0 0 0", "Na 0 0 0"] =
      .ok ⟨"t", [⟨"Na", (0, 0, 0)⟩, ⟨"Na", (0, 0, 0)⟩, ⟨"Na", (0, 0, 0)⟩]⟩ := by
  refine ⟨?_, by decide, by decide, by decide, by decide⟩
  intro lines stru h
  obtain ⟨w, d, t, h1, h2, h3, hb⟩ := parseLines_ok_header h
  exact parseBody_ok_elements hb

/-- C8, witness: the normalization form of the atoms of a concrete parse. -/
theorem xyz_element_normalization_witness :
    ∀ a ∈ (Structure.mk "t" [⟨"Fe", (0, 0, 0)⟩]).atoms,
      ∃ tok, a.element = normElem tok :=
  xyz_element_normalization.1 ["1", "t", "FE 0 0 0"]
    ⟨"t", [⟨"Fe", (0, 0, 0)⟩]⟩ (by decide)

/-- C9: a count line holding a single canonical *negative* integer token,
followed by a title line and only blank lines after it, parses to an empty
structure with no error — the early return for `start >= stop` fires
before the final count comparison. -/
theorem xyz_negative_count :
    ∀ (lines : List String) (w t : String) (d : ℤ),
      (lines.map pysplit).get? (skipLead (lines.map pysplit)) = some [w] →
      canonInt? w = some d → d < 0 →
      lines.get? (skipLead (lines.map pysplit) + 1) = some t →
      (∀ j, skipLead (lines.map pysplit) + 2 ≤ j → j < lines.length →
        (lines.map pysplit).getD j [] = []) →
      Parser.parseLines lines = .ok ⟨pystrip t, []⟩ := by
  intro lines w t d h1 h2 hneg h3 hblank
  rw [parseLines_eq_body h1 h2 h3]
  unfold parseBody
  rw [if_pos (Or.inr (trimStop_of_blank hblank))]

/-- C9, witness: `["-2", "t"]` parses to the empty structure. -/
theorem xyz_negative_count_witness :
    Parser.parseLines ["-2", "t"] = .ok ⟨pystrip "t", []⟩ :=
  xyz_negative_count ["-2", "t"] "-2" "t" (-2) (by decide) (by decide)
    (by decide) (by decide)
    (fun j h1 h2 => absurd h2 (Nat.not_lt.mpr h1))

/-- C10: a `#`-leading line inside the record block is not treated as a
comment — with the required 4 columns and numeric coordinates it is
appended as an atom whose element is `#` (the loop's normalization leaves
`#` unchanged), a `#`-leading line with a different column count is a
column-mismatch error, a 4-column `#` line with a non-numeric coordinate
is a number-format error, and end to end `# 1 2 3` after `C 0 0 0` parses
as a second atom with element `#`. -/
theorem xyz_hash_record :
    (∀ (xs ys zs : String) (rest : List (List String)) (pnl : ℕ)
        (acc : List Atom) (x y z : ℚ),
      pyFloat? xs = some x → pyFloat? ys = some y → pyFloat? zs = some z →
      readRecords (["#", xs, ys, zs] :: rest) pnl acc =
        readRecords rest (pnl + 1) (⟨"#", (x, y, z)⟩ :: acc)) ∧
    (∀ (args : List String) (rest : List (List String)) (pnl : ℕ)
        (acc : List Atom),
      ("#" :: args).length ≠ 4 →
      readRecords (("#" :: args) :: rest) pnl acc =
        .error (.colMismatch (pnl + 1))) ∧
    (∀ (xs ys zs : String) (rest : List (List String)) (pnl : ℕ)
        (acc : List Atom),
      pyFloat? xs = none →
      readRecords (["#", xs, ys, zs] :: rest) pnl acc =
        .error (.badNumber (pnl + 1))) ∧
    Parser.parseLines ["2", "t", "C 0 0 0", "# 1 2 3"] =
      .ok ⟨"t", [⟨"C", (0, 0, 0)⟩, ⟨"#", (1, 2, 3)⟩]⟩ := by
  refine ⟨?_, ?_, ?_, by decide⟩
  · intro xs ys zs rest pnl acc x y z h1 h2 h3
    rw [readRecords, if_neg (by simp), if_neg (by simp)]
    rw [show (["#", xs, ys, zs].getD 1 "") = xs from rfl,
      show (["#", xs, ys, zs].getD 2 "") = ys from rfl,
      show (["#", xs, ys, zs].getD 3 "") = zs from rfl, h1, h2, h3]
    rfl
  · intro args rest pnl acc hlen
    rw [readRecords, if_neg (by simp), if_pos hlen]
  · intro xs ys zs rest pnl acc h1
    rw [readRecords, if_neg (by simp), if_neg (by simp)]
    rw [show (["#", xs, ys, zs].getD 1 "") = xs from rfl, h1]

/-- C10, witness: the `#` record step at concrete numeric coordinates. -/
theorem xyz_hash_record_witness :
    readRecords [["#", "1", "2", "3"]] 2 [] =
      readRecords [] 3 [⟨"#", (1, 2, 3)⟩] :=
  xyz_hash_record.1 "1" "2" "3" [] 2 [] 1 2 3 (by decide) (by decide) (by decide)

end Diffpy
